import Mathlib

/-!
# Verification of the ai-bot review pipeline

Shallow embedding of the review-aggregation core of the repository:
the security scanner (`securityScannerService`), the custom linter
(`customLinterService`), the AI review normalizer (`aiReviewService`) and
the aggregation engine in the review controller (`createReview` /
`generateComprehensiveSummary`).

Conventions of the embedding:
* JavaScript strings are Lean `String`s; `string.length` is `String.length`
  (code-unit vs character differences do not matter for the ASCII data the
  claims are about).
* `str.split('\n')` is embedded as `splitNl` below (structural recursion on
  the character list, same semantics including empty trailing pieces).
* Narrative markdown strings (the various `summary` generators) are not
  modelled: no claim is about their text, only about counts and decisions.
* External calls (the OpenAI API) are modelled by an oracle argument giving
  the outcome of the call for each file.
-/

/-- JavaScript `content.split('\n')`: split a character list at newlines,
keeping empty pieces (so `"a\n"` splits to `["a", ""]`). -/
def splitNlAux : List Char → List Char → List String
  | [], acc => [String.mk acc.reverse]
  | c :: cs, acc =>
    if c = '\n' then String.mk acc.reverse :: splitNlAux cs []
    else splitNlAux cs (c :: acc)

/-- `content.split('\n')` on a `String`. -/
def splitNl (s : String) : List String :=
  splitNlAux s.data []

/-- `getLineNumber`'s loop: `currentIndex` accumulates `lines[i].length + 1`
per line; the first line index `i` with `currentIndex > charIndex` yields
`i + 1`; if the loop finishes, `1` is returned.  The function appears
verbatim in both `securityScannerService` and `customLinterService`. -/
def getLineNumberAux : List String → Nat → Nat → Nat → Nat
  | [], _, _, _ => 1
  | l :: ls, charIndex, currentIndex, i =>
    let currentIndex' := currentIndex + l.length + 1
    if charIndex < currentIndex' then i
    else getLineNumberAux ls charIndex currentIndex' (i + 1)

/-- `getLineNumber(lines, charIndex)`, shared verbatim by
`securityScannerService` and `customLinterService`. -/
def getLineNumber (lines : List String) (charIndex : Nat) : Nat :=
  getLineNumberAux lines charIndex 0 1

/-- Cumulative length of the first `k` lines, counting one newline per line:
`sum of (lines[j].length + 1) for j < k`. -/
def cumLen (lines : List String) (k : Nat) : Nat :=
  ((lines.take k).map (fun l => l.length + 1)).sum

/-- `getColumnNumber(line, charIndex)` from `customLinterService`:
`if (!line) return 0; return charIndex % (line.length + 1);`
(`!line` is true for a missing line and for the empty string). -/
def getColumnNumber (line : Option String) (charIndex : Nat) : Nat :=
  match line with
  | none => 0
  | some l => if l = "" then 0 else charIndex % (l.length + 1)

/-- The column reported by `lintFile` for a pattern-rule match at character
index `matchIndex` of the patch text:
`this.getColumnNumber(lines[lineNumber - 1], match.index)` where
`lineNumber = this.getLineNumber(lines, match.index)`. -/
def patternMatchColumn (content : String) (matchIndex : Nat) : Nat :=
  let lines := splitNl content
  let lineNumber := getLineNumber lines matchIndex
  getColumnNumber (lines.get? (lineNumber - 1)) matchIndex

/-- Modelled from the spec (for comparison with `patternMatchColumn`): the
0-based offset of the match within its own (reported) line, i.e. the match's
character index minus the total length of all preceding lines including
their newlines. -/
def columnSpec (content : String) (matchIndex : Nat) : Nat :=
  let lines := splitNl content
  matchIndex - cumLen lines (getLineNumber lines matchIndex - 1)

namespace SecurityScanner

/-- `sanitizeSecret` from `securityScannerService`:
`if (secret.length <= 10) return secret;`
`return secret.substring(0, 4) + '*'.repeat(8) + '...';`
(`substring(0, 4)` keeps the first four characters). -/
def sanitizeSecret (secret : String) : String :=
  if secret.length ≤ 10 then secret
  else String.mk (secret.data.take 4) ++ "********" ++ "..."

end SecurityScanner

/-- A file record from the PR diff listing:
`{filename, status, additions, deletions, patch}` (`patch` may be absent). -/
structure FileRec where
  filename : String
  status : String := ""
  additions : Nat := 0
  deletions : Nat := 0
  patch : Option String := none

/-- One step of JavaScript `haystack.includes(needle)`: check the needle
against every suffix of the haystack. -/
def containsSubAux (needle : List Char) : List Char → Bool
  | [] => List.isPrefixOf needle []
  | c :: cs => List.isPrefixOf needle (c :: cs) || containsSubAux needle cs

/-- JavaScript `hay.includes(needle)`. -/
def containsSub (hay needle : String) : Bool :=
  containsSubAux needle.data hay.data

/-- JavaScript `s.endsWith(pat)`. -/
def strEndsWith (s pat : String) : Bool :=
  List.isSuffixOf pat.data s.data

/-! ## A small regular-expression matcher

The advanced security checks test JavaScript regex literals against the
patch text.  We embed the exact patterns over a standard
derivative-based matcher: `eps` (empty word), `chr` (one literal
character), `cls` (character class), `anyChar`, alternation,
concatenation and Kleene star. -/

inductive RE where
  | eps : RE
  | chr : Char → RE
  | cls : List Char → RE
  | anyChar : RE
  | alt : RE → RE → RE
  | cat : RE → RE → RE
  | star : RE → RE

/-- Does the language of `r` contain the empty word? -/
def RE.nullable : RE → Bool
  | .eps => true
  | .chr _ => false
  | .cls _ => false
  | .anyChar => false
  | .alt a b => a.nullable || b.nullable
  | .cat a b => a.nullable && b.nullable
  | .star _ => true

/-- Brzozowski derivative of `r` with respect to the character `c`. -/
def RE.deriv : RE → Char → RE
  | .eps, _ => .cls []
  | .chr a, c => if a = c then .eps else .cls []
  | .cls cs, c => if cs.contains c then .eps else .cls []
  | .anyChar, _ => .eps
  | .alt a b, c => .alt (a.deriv c) (b.deriv c)
  | .cat a b, c =>
    if a.nullable then .alt (.cat (a.deriv c) b) (b.deriv c)
    else .cat (a.deriv c) b
  | .star a, c => .cat (a.deriv c) (.star a)

/-- Does `r` match the whole character list? -/
def RE.matches' : RE → List Char → Bool
  | r, [] => r.nullable
  | r, c :: cs => (r.deriv c).matches' cs

/-- JavaScript `regex.test(s)`: does `r` match somewhere inside `s`? -/
def reTest (r : RE) (s : String) : Bool :=
  (RE.cat (.star .anyChar) (RE.cat r (.star .anyChar))).matches' s.data

/-- Case-insensitive `regex.test(s)` (the `i` flag): both the embedded
pattern literals and the subject are lower-cased. -/
def reTestCI (r : RE) (s : String) : Bool :=
  (RE.cat (.star .anyChar) (RE.cat r (.star .anyChar))).matches'
    (s.data.map Char.toLower)

/-- The regex matching exactly a literal string. -/
def reLit (s : String) : RE :=
  s.data.foldr (fun c r => RE.cat (RE.chr c) r) RE.eps

/-- The characters matched by the JavaScript class `\s` (the common
whitespace code points; the exotic Unicode spaces never occur in the
claims' data). -/
def wsChars : List Char :=
  [' ', '\t', '\n', '\r', '\x0B', '\x0C', '\u00A0']

/-- `\s*` -/
def wsStar : RE := RE.star (RE.cls wsChars)

/-- `\s+` -/
def wsPlus : RE := RE.cat (RE.cls wsChars) wsStar

namespace SecurityScanner

/-- The scanner's severity vocabulary; every rule in the scanner's fixed
pattern table carries one of these four severities. -/
inductive Severity where
  | critical : Severity
  | high : Severity
  | medium : Severity
  | low : Severity
deriving DecidableEq, Repr

/-- One security finding, as pushed by `scanFile` / `performAdvancedChecks`
(fields that only some finding shapes carry are `Option`s / defaults). -/
structure SecIssue where
  type : String
  name : String
  severity : Severity
  file : String
  line : Option Nat := none
  message : String := ""
  suggestion : String := ""
deriving Repr

/-- `filename.includes('auth') || filename.includes('token') ||
filename.includes('crypto')` from the weak-randomness check. -/
def securitySensitiveName (filename : String) : Bool :=
  containsSub filename "auth" || containsSub filename "token" ||
    containsSub filename "crypto"

/-- `/Math\.random\(\)/` (case-sensitive, no flags beyond the literal). -/
def mathRandomRE : RE := reLit "Math.random()"

/-- `/csrf:\s*false|helmet:\s*false|cors:\s*\{\s*origin:\s*['"]\*['"]/gi`
(written lower-case; it is tested case-insensitively). -/
def disabledSecurityRE : RE :=
  RE.alt (RE.cat (reLit "csrf:") (RE.cat wsStar (reLit "false")))
    (RE.alt (RE.cat (reLit "helmet:") (RE.cat wsStar (reLit "false")))
      (RE.cat (reLit "cors:")
        (RE.cat wsStar
          (RE.cat (RE.chr '{')
            (RE.cat wsStar
              (RE.cat (reLit "origin:")
                (RE.cat wsStar
                  (RE.cat (RE.cls ['\'', '"'])
                    (RE.cat (RE.chr '*') (RE.cls ['\'', '"']))))))))))

/-- `/eval\s*\(|new\s+Function\s*\(/gi` (written lower-case; it is tested
case-insensitively). -/
def dangerousEvalRE : RE :=
  RE.alt (RE.cat (reLit "eval") (RE.cat wsStar (RE.chr '(')))
    (RE.cat (reLit "new")
      (RE.cat wsPlus (RE.cat (reLit "function") (RE.cat wsStar (RE.chr '(')))))

/-- `performAdvancedChecks(file, content)` from `securityScannerService`:
three conditional pushes — weak random generation (content pattern AND a
security-sensitive filename), disabled security feature (content pattern
only), dangerous eval/Function-constructor usage (content pattern only). -/
def performAdvancedChecks (file : FileRec) (content : String) :
    List SecIssue :=
  (if reTest mathRandomRE content && securitySensitiveName file.filename then
    [{ type := "vulnerability"
       name := "Weak Random Number Generation"
       severity := .high
       file := file.filename
       message := "Math.random() is not cryptographically secure"
       suggestion := "Use crypto.randomBytes() or similar secure methods" }]
  else [])
  ++ (if reTestCI disabledSecurityRE content then
    [{ type := "configuration"
       name := "Disabled Security Feature"
       severity := .medium
       file := file.filename
       message := "Security feature appears to be disabled"
       suggestion := "Enable security features unless specifically required" }]
  else [])
  ++ (if reTestCI dangerousEvalRE content then
    [{ type := "vulnerability"
       name := "Dangerous Function Usage"
       severity := .high
       file := file.filename
       message := "Usage of eval() or Function constructor detected"
       suggestion := "Avoid eval() and Function constructor for security" }]
  else [])

/-- The extension allowlist of `shouldScanFile`. -/
def scanExtensions : List String :=
  [".js", ".jsx", ".ts", ".tsx", ".py", ".java", ".cs", ".php", ".rb",
   ".go", ".yml", ".yaml", ".json", ".env"]

/-- `shouldScanFile(filename)`:
`scanExtensions.some(ext => filename.endsWith(ext))`. -/
def shouldScanFile (filename : String) : Bool :=
  scanExtensions.any (fun ext => strEndsWith filename ext)

/-- The scanner's per-severity buckets (`issues` in `scanCode`). -/
structure Buckets where
  critical : List SecIssue := []
  high : List SecIssue := []
  medium : List SecIssue := []
  low : List SecIssue := []

/-- `issues[issue.severity].push(issue)` for one finding. -/
def pushBySeverity (b : Buckets) (i : SecIssue) : Buckets :=
  match i.severity with
  | .critical => { b with critical := b.critical ++ [i] }
  | .high => { b with high := b.high ++ [i] }
  | .medium => { b with medium := b.medium ++ [i] }
  | .low => { b with low := b.low ++ [i] }

/-- `categorizeIssuesBySeverity(fileIssues, issues)` from
`securityScannerService`: push every file issue into the bucket named by
its severity. -/
def categorizeIssuesBySeverity (fileIssues : List SecIssue) (b : Buckets) :
    Buckets :=
  fileIssues.foldl pushBySeverity b

/-- The record returned by `scanCode` (the narrative `summary` string is
not modelled). -/
structure ScanResult where
  issues : Buckets
  total : Nat
  critical : Nat
  high : Nat

/-- The tail of `scanCode`: the returned record with
`total = Object.values(issues).flat().length`,
`critical = issues.critical.length`, `high = issues.high.length`. -/
def mkScanResult (b : Buckets) : ScanResult :=
  { issues := b
    total := (b.critical ++ b.high ++ b.medium ++ b.low).length
    critical := b.critical.length
    high := b.high.length }

/-- `scanCode(files)` from `securityScannerService`.  The per-file pattern
scan `scanFile` (the secret/vulnerability rule tables) is passed as a
parameter: the claims about `scanCode` concern only its filtering,
bucketing and counting, which are embedded verbatim —
`if (!this.shouldScanFile(file.filename)) continue;` then
`categorizeIssuesBySeverity(fileIssues, issues)`. -/
def scanCode (scanFile : FileRec → List SecIssue) (files : List FileRec) :
    ScanResult :=
  mkScanResult (files.foldl
    (fun acc f =>
      if shouldScanFile f.filename then
        categorizeIssuesBySeverity (scanFile f) acc
      else acc)
    {})

end SecurityScanner

namespace CustomLinter

/-- One lint finding.  `severity` stays a raw string: custom rules may
carry arbitrary severity values and `lintFile` copies `rule.severity`
into the finding unchecked. -/
structure LintIssue where
  rule : String
  severity : String
  message : String
  file : String
  line : Option Nat := none
  column : Option Nat := none
deriving Repr

/-- The linter's severity buckets (`issues` in `lintFiles`). -/
structure Buckets where
  errors : List LintIssue := []
  warnings : List LintIssue := []
  info : List LintIssue := []

/-- One step of the linter's `categorizeIssuesBySeverity`:
`if severity === 'error' push errors; else if 'warning' push warnings;
else push info`. -/
def pushBySeverity (b : Buckets) (i : LintIssue) : Buckets :=
  if i.severity = "error" then { b with errors := b.errors ++ [i] }
  else if i.severity = "warning" then { b with warnings := b.warnings ++ [i] }
  else { b with info := b.info ++ [i] }

/-- `categorizeIssuesBySeverity(fileIssues, issues)` from
`customLinterService`. -/
def categorizeIssuesBySeverity (fileIssues : List LintIssue) (b : Buckets) :
    Buckets :=
  fileIssues.foldl pushBySeverity b

/-- The record returned by `lintFiles` (the narrative `summary` string is
not modelled). -/
structure LintResult where
  issues : Buckets
  total : Nat

/-- The tail of `lintFiles`: the returned record with
`total = Object.values(issues).flat().length`. -/
def mkLintResult (b : Buckets) : LintResult :=
  { issues := b
    total := (b.errors ++ b.warnings ++ b.info).length }

/-- `lintFiles(files, customRules)` from `customLinterService`.  The rule
type and the per-file rule engine `lintFile` are parameters: the claims
about `lintFiles` concern only its rule merging
(`allRules = [...this.defaultRules, ...customRules]`), bucketing and
counting, which are embedded verbatim. -/
def lintFiles {Rule : Type} (lintFile : FileRec → List Rule → List LintIssue)
    (defaultRules : List Rule) (files : List FileRec)
    (customRules : List Rule) : LintResult :=
  let allRules := defaultRules ++ customRules
  mkLintResult (files.foldl
    (fun acc f => categorizeIssuesBySeverity (lintFile f allRules) acc)
    {})

end CustomLinter

namespace AIReview

/-- A JSON value, as produced by `JSON.parse` on the model's response. -/
inductive Json where
  | null : Json
  | bool : Bool → Json
  | num : Int → Json
  | str : String → Json
  | arr : List Json → Json
  | obj : List (String × Json) → Json
deriving Repr

/-- JavaScript property access `value[key]` on a JSON value: `none` when
the value is not an object or lacks the key (reading a property of a
non-object yields `undefined`; on `null` it throws, and every use below
treats `none` as the failing case anyway). -/
def getField : Json → String → Option Json
  | .obj fields, key => (fields.find? (fun p => p.1 == key)).map (·.2)
  | _, _ => none

/-- The empty analysis shape `{comments: [], issues: []}` returned by the
`catch` branch of `analyzeFile`. -/
def emptyShape : Json :=
  .obj [("comments", .arr []), ("issues", .arr [])]

/-- Is this (possibly absent) field value an array? -/
def isArrField : Option Json → Bool
  | some (.arr _) => true
  | _ => false

/-- The elements of an array-valued field (`[]` when absent or not an
array). -/
def arrOf : Option Json → List Json
  | some (.arr xs) => xs
  | _ => []

/-- Does a parsed response have the shape the rest of the pipeline relies
on: a `comments` field and an `issues` field that are both arrays?  (This
is the weakest reading of "the expected JSON shape": `analyzePullRequest`
spreads `analysis.comments` and iterates `analysis.issues`.) -/
def conformsShape (j : Json) : Bool :=
  isArrField (getField j "comments") && isArrField (getField j "issues")

/-- Outcome of the external call + `JSON.parse` for one file: the API call
threw, `JSON.parse` of the content threw, or parsing succeeded with a
JSON value.  The OpenAI API is external, so it enters the embedding as an
oracle producing one of these. -/
inductive CallOutcome where
  | callError : CallOutcome
  | parseError : CallOutcome
  | parsed : Json → CallOutcome

/-- `analyzeFile(file, reviewLevel)` from `aiReviewService`:
`try { ... return JSON.parse(response.choices[0].message.content); }`
`catch (error) { ... return { comments: [], issues: [] }; }` —
a thrown call or a `JSON.parse` failure is caught and degrades to the
empty shape; a successfully parsed value is returned as-is, unvalidated. -/
def analyzeFile (oracle : FileRec → String → CallOutcome) (file : FileRec)
    (reviewLevel : String) : Json :=
  match oracle file reviewLevel with
  | .parsed j => j
  | _ => emptyShape

/-- `shouldSkipFile(filename)` from `aiReviewService`: the skip regexes
`/node_modules/`, `/package-lock\.json/`, `/\.min\.js$/`, `/\.min\.css$/`,
`/dist\//`, `/build\//`, `/\.map$/` are plain substring / suffix tests. -/
def shouldSkipFile (filename : String) : Bool :=
  containsSub filename "node_modules" ||
  containsSub filename "package-lock.json" ||
  strEndsWith filename ".min.js" ||
  strEndsWith filename ".min.css" ||
  containsSub filename "dist/" ||
  containsSub filename "build/" ||
  strEndsWith filename ".map"

/-- The five issue buckets accumulated by `analyzePullRequest`. -/
structure IssueBuckets where
  bugs : List Json := []
  codeSmells : List Json := []
  performance : List Json := []
  security : List Json := []
  bestPractices : List Json := []

/-- One step of `categorizeIssues`: `switch (issue.type)` pushing into the
bucket for `bug` / `security` / `performance` / `style` / `bestpractice`,
defaulting to `codeSmells`. -/
def pushIssue (b : IssueBuckets) (issue : Json) : IssueBuckets :=
  match getField issue "type" with
  | some (.str "bug") => { b with bugs := b.bugs ++ [issue] }
  | some (.str "security") => { b with security := b.security ++ [issue] }
  | some (.str "performance") =>
    { b with performance := b.performance ++ [issue] }
  | some (.str "style") => { b with codeSmells := b.codeSmells ++ [issue] }
  | some (.str "bestpractice") =>
    { b with bestPractices := b.bestPractices ++ [issue] }
  | _ => { b with codeSmells := b.codeSmells ++ [issue] }

/-- `categorizeIssues(issues, categories)` from `aiReviewService`. -/
def categorizeIssues (issues : List Json) (b : IssueBuckets) :
    IssueBuckets :=
  issues.foldl pushIssue b

/-- The loop of `analyzePullRequest`: per file, skip or analyze, then
`comments.push(...analysis.comments)` and
`categorizeIssues(analysis.issues, issues)`.  Spreading or iterating a
value that is not an array throws a `TypeError` in JavaScript (for every
JSON-decoded value except a string being spread), which propagates out of
the loop — modelled as `Except.error`. -/
def analyzePullRequestAux (oracle : FileRec → String → CallOutcome)
    (reviewLevel : String) :
    List FileRec → List Json → IssueBuckets →
    Except String (List Json × IssueBuckets)
  | [], comments, buckets => .ok (comments, buckets)
  | f :: fs, comments, buckets =>
    if shouldSkipFile f.filename then
      analyzePullRequestAux oracle reviewLevel fs comments buckets
    else
      match getField (analyzeFile oracle f reviewLevel) "comments",
            getField (analyzeFile oracle f reviewLevel) "issues" with
      | some (.arr cs), some (.arr iss) =>
        analyzePullRequestAux oracle reviewLevel fs (comments ++ cs)
          (categorizeIssues iss buckets)
      | _, _ => .error "TypeError"

/-- The per-file part of `analyzePullRequest(prData, reviewLevel)` from
`aiReviewService` (the summary generation and database write that follow
the loop are external / not modelled). -/
def analyzePullRequest (oracle : FileRec → String → CallOutcome)
    (files : List FileRec) (reviewLevel : String) :
    Except String (List Json × IssueBuckets) :=
  analyzePullRequestAux oracle reviewLevel files [] {}

/-- The comments a single file contributes to the batch (empty when the
call failed, the response did not parse, or the parsed value has no
`comments` array). -/
def fileComments (oracle : FileRec → String → CallOutcome) (file : FileRec)
    (reviewLevel : String) : List Json :=
  arrOf (getField (analyzeFile oracle file reviewLevel) "comments")

/-- The issues a single file contributes to the batch. -/
def fileIssues (oracle : FileRec → String → CallOutcome) (file : FileRec)
    (reviewLevel : String) : List Json :=
  arrOf (getField (analyzeFile oracle file reviewLevel) "issues")

/-- `levelInstructions[reviewLevel]` from `buildAnalysisPrompt`: a plain
object lookup, `none` (JavaScript `undefined`) for unknown levels. -/
def levelInstructions (reviewLevel : String) : Option String :=
  if reviewLevel = "light" then
    some "Focus only on critical bugs and security issues"
  else if reviewLevel = "standard" then
    some "Review for bugs, security, performance, and major code quality issues"
  else if reviewLevel = "strict" then
    some "Comprehensive review including style, naming, documentation, and all best practices"
  else none

/-- JavaScript template-string interpolation of a possibly-`undefined`
value: `undefined` is rendered as the literal text `undefined`. -/
def jsInterp : Option String → String
  | some s => s
  | none => "undefined"

/-- The template of `buildAnalysisPrompt` with the instruction text as an
explicit argument. -/
def buildAnalysisPromptWith (file : FileRec) (reviewLevel : String)
    (instructions : String) : String :=
  "\n      Review Level: " ++ reviewLevel ++
  "\n      Instructions: " ++ instructions ++
  "\n      \n      File: " ++ file.filename ++
  "\n      Status: " ++ file.status ++
  "\n      Additions: " ++ toString file.additions ++
  "\n      Deletions: " ++ toString file.deletions ++
  "\n      \n      Code Patch:\n      " ++ jsInterp file.patch ++
  "\n      \n      Analyze this code change and provide feedback.\n    "

/-- `buildAnalysisPrompt(file, reviewLevel)` from `aiReviewService`:
the template interpolates `levelInstructions[reviewLevel]` directly, so an
unknown level renders as the text `undefined`. -/
def buildAnalysisPrompt (file : FileRec) (reviewLevel : String) : String :=
  buildAnalysisPromptWith file reviewLevel
    (jsInterp (levelInstructions reviewLevel))

end AIReview

namespace Controller

open SecurityScanner CustomLinter AIReview

/-- An entry of the controller's `combinedComments` array: either an AI
comment object passed through unchanged by the spread
`...aiAnalysis.comments`, or a `{path, line, body}` object built by the
controller from a security or lint finding. -/
inductive ReviewComment where
  | ai : Json → ReviewComment
  | formatted : String → Option Nat → String → ReviewComment

/-- `issue.severity.toUpperCase()` for a scanner severity. -/
def sevUpper : SecurityScanner.Severity → String
  | .critical => "CRITICAL"
  | .high => "HIGH"
  | .medium => "MEDIUM"
  | .low => "LOW"

/-- The body built for a critical security finding:
``🔒 **SECURITY ${severity.toUpperCase()}**: ${message}\n\n${suggestion}``. -/
def securityCommentBody (i : SecIssue) : String :=
  "🔒 **SECURITY " ++ sevUpper i.severity ++ "**: " ++ i.message ++
    "\n\n" ++ i.suggestion

/-- The body built for a lint error finding:
``📏 **LINTING ERROR**: ${message}\n\nRule: `${rule}` ``. -/
def lintCommentBody (i : LintIssue) : String :=
  "📏 **LINTING ERROR**: " ++ i.message ++ "\n\nRule: `" ++ i.rule ++ "`"

/-- `combinedComments` from `createReview` (`projectController`-style
review controller): all AI comments, then one comment per critical
security finding, then one comment per lint error finding. -/
def combinedComments (aiComments : List Json) (sec : ScanResult)
    (lint : LintResult) : List ReviewComment :=
  aiComments.map .ai
  ++ sec.issues.critical.map
      (fun i => .formatted i.file i.line (securityCommentBody i))
  ++ lint.issues.errors.map
      (fun i => .formatted i.file i.line (lintCommentBody i))

/-- The three decision states of the summary banner. -/
inductive Decision where
  | approved : Decision
  | changesRequested : Decision
  | reviewSuggested : Decision
deriving DecidableEq, Repr

/-- `totalIssues` from `generateComprehensiveSummary`:
`aiAnalysis.comments.length + securityScan.total + lintingResults.total`. -/
def totalIssues (aiComments : List Json) (sec : ScanResult)
    (lint : LintResult) : Nat :=
  aiComments.length + sec.total + lint.total

/-- The decision branch of `generateComprehensiveSummary`:
`hasCritical = securityScan.critical > 0 ||
lintingResults.issues.errors.length > 0`; `APPROVED` when
`totalIssues === 0`, else `CHANGES REQUESTED` when `hasCritical`, else
`REVIEW SUGGESTED`. -/
def overallStatus (aiComments : List Json) (sec : ScanResult)
    (lint : LintResult) : Decision :=
  if totalIssues aiComments sec lint = 0 then .approved
  else if 0 < sec.critical ∨ 0 < lint.issues.errors.length then
    .changesRequested
  else .reviewSuggested

end Controller

/-! ## Concrete inputs used in counterexamples and witnesses -/

/-- A plain source file record (neither skipped nor special). -/
def exampleFile : FileRec :=
  { filename := "src/app.js", status := "modified", additions := 3,
    deletions := 1, patch := some "+const x = 1;" }

/-- A plain file record named `a.js`. -/
def fileA : FileRec := { filename := "a.js" }

/-- A plain file record named `b.js`. -/
def fileB : FileRec := { filename := "b.js" }

/-- A syntactically valid JSON response whose shape is wrong: the
`comments` field is a number, not an array. -/
def badShape : AIReview.Json :=
  .obj [("comments", .num 5), ("issues", .arr [])]

/-- An oracle whose call throws for `a.js` and returns the (conforming)
empty shape for every other file. -/
def oracleW : FileRec → String → AIReview.CallOutcome :=
  fun f _ =>
    if f.filename = "a.js" then .callError else .parsed AIReview.emptyShape

/-- A two-file batch. -/
def filesW : List FileRec := [fileA, fileB]

theorem cumLen_succ (l : String) (ls : List String) (k : Nat) :
    cumLen (l :: ls) (k + 1) = (l.length + 1) + cumLen ls k := by
  simp [cumLen, List.take_succ_cons]

theorem cumLen_zero (lines : List String) : cumLen lines 0 = 0 := by
  simp [cumLen]

/-- If line `k` is the first whose cumulative length exceeds the offset, the
loop returns `i + k` where `i` is the starting counter. -/
theorem getLineNumberAux_first (ls : List String) (c cur i k : Nat)
    (hk : k < ls.length)
    (hlt : c < cur + cumLen ls (k + 1))
    (hmin : ∀ j, j < k → cur + cumLen ls (j + 1) ≤ c) :
    getLineNumberAux ls c cur i = i + k := by
  induction ls generalizing cur i k with
  | nil => simp at hk
  | cons l t ih =>
    rw [getLineNumberAux]
    cases k with
    | zero =>
      rw [cumLen_succ, cumLen_zero] at hlt
      simp only [Nat.add_zero] at hlt ⊢
      rw [if_pos]
      omega
    | succ k' =>
      have hle : cur + cumLen (l :: t) 1 ≤ c := hmin 0 (Nat.succ_pos _)
      rw [cumLen_succ, cumLen_zero] at hle
      rw [if_neg (by omega)]
      have := ih (cur + l.length + 1) (i + 1) k'
        (by simpa using hk)
        (by rw [cumLen_succ] at hlt; omega)
        (fun j hj => by
          have := hmin (j + 1) (by omega)
          rw [cumLen_succ] at this
          omega)
      omega

/-- If no cumulative length exceeds the offset, the loop returns `1`. -/
theorem getLineNumberAux_none (ls : List String) (c cur i : Nat)
    (h : ∀ j, j < ls.length → cur + cumLen ls (j + 1) ≤ c) :
    getLineNumberAux ls c cur i = 1 := by
  induction ls generalizing cur i with
  | nil => rfl
  | cons l t ih =>
    rw [getLineNumberAux]
    have h0 : cur + cumLen (l :: t) 1 ≤ c := h 0 (Nat.succ_pos _)
    rw [cumLen_succ, cumLen_zero] at h0
    rw [if_neg (by omega)]
    exact ih (cur + l.length + 1) (i + 1) (fun j hj => by
      have := h (j + 1) (by simpa using hj)
      rw [cumLen_succ] at this
      omega)

/-- `getLineNumber lines c` computed through the least line index whose
cumulative length exceeds `c` (when one exists). -/
theorem getLineNumber_eq_find (lines : List String) (c : Nat)
    (hex : ∃ n, n < lines.length ∧ c < cumLen lines (n + 1)) :
    getLineNumber lines c = Nat.find hex + 1 := by
  have hspec := Nat.find_spec hex
  have hres := getLineNumberAux_first lines c 0 1 (Nat.find hex)
    hspec.1 (by simpa using hspec.2)
    (fun j hj => by
      have hnot := Nat.find_min hex hj
      push_neg at hnot
      have := hnot (Nat.lt_trans hj hspec.1)
      omega)
  rw [getLineNumber, hres]
  omega

/-- Monotonicity of `getLineNumber` over offsets that lie inside the text
(the fallback branch is never reached there). -/
theorem getLineNumber_mono (lines : List String) (c c' : Nat)
    (hcc : c ≤ c') (hlt : c' < cumLen lines lines.length) :
    getLineNumber lines c ≤ getLineNumber lines c' := by
  have hne : lines.length ≠ 0 := by
    intro h0
    rw [h0, cumLen_zero] at hlt
    omega
  have hex' : ∃ n, n < lines.length ∧ c' < cumLen lines (n + 1) := by
    refine ⟨lines.length - 1, by omega, ?_⟩
    have : lines.length - 1 + 1 = lines.length := by omega
    rw [this]
    exact hlt
  have hex : ∃ n, n < lines.length ∧ c < cumLen lines (n + 1) := by
    obtain ⟨n, hn, hc⟩ := hex'
    exact ⟨n, hn, by omega⟩
  rw [getLineNumber_eq_find lines c hex, getLineNumber_eq_find lines c' hex']
  have hfind : Nat.find hex ≤ Nat.find hex' := by
    apply Nat.find_min'
    have := Nat.find_spec hex'
    exact ⟨this.1, by omega⟩
  omega

/-- Folding a conditional body over a list is folding the body over the
filtered list (`for … { if (!p) continue; … }`). -/
theorem foldl_skip_eq_foldl_filter {α β : Type} (p : α → Bool)
    (g : β → α → β) (l : List α) (b : β) :
    l.foldl (fun acc f => if p f then g acc f else acc) b =
      (l.filter p).foldl g b := by
  induction l generalizing b with
  | nil => rfl
  | cons x xs ih =>
    by_cases hx : p x
    · simp only [List.foldl_cons, hx, if_true, List.filter_cons_of_pos hx]
      exact ih (g b x)
    · simp only [List.foldl_cons, hx, if_false,
        List.filter_cons_of_neg (by simpa using hx)]
      exact ih b

namespace SecurityScanner

theorem categorize_critical (xs : List SecIssue) (b : Buckets) :
    (categorizeIssuesBySeverity xs b).critical =
      b.critical ++ xs.filter (fun i => i.severity = Severity.critical) := by
  induction xs generalizing b with
  | nil => simp [categorizeIssuesBySeverity]
  | cons x xs ih =>
    rw [categorizeIssuesBySeverity, List.foldl_cons,
      ← categorizeIssuesBySeverity, ih]
    cases hsev : x.severity <;>
      simp [pushBySeverity, hsev, List.filter_cons]

end SecurityScanner

namespace CustomLinter

theorem categorizeLint_append (xs ys : List LintIssue) (b : Buckets) :
    categorizeIssuesBySeverity (xs ++ ys) b =
      categorizeIssuesBySeverity ys (categorizeIssuesBySeverity xs b) := by
  simp [categorizeIssuesBySeverity, List.foldl_append]

theorem categorize_errors (xs : List LintIssue) (b : Buckets) :
    (categorizeIssuesBySeverity xs b).errors =
      b.errors ++ xs.filter (fun i => i.severity = "error") := by
  induction xs generalizing b with
  | nil => simp [categorizeIssuesBySeverity]
  | cons x xs ih =>
    rw [categorizeIssuesBySeverity, List.foldl_cons,
      ← categorizeIssuesBySeverity, ih]
    by_cases he : x.severity = "error"
    · simp [pushBySeverity, he, List.filter_cons]
    · by_cases hw : x.severity = "warning" <;>
        simp [pushBySeverity, he, hw, List.filter_cons]

theorem categorize_warnings (xs : List LintIssue) (b : Buckets) :
    (categorizeIssuesBySeverity xs b).warnings =
      b.warnings ++ xs.filter (fun i => i.severity = "warning") := by
  induction xs generalizing b with
  | nil => simp [categorizeIssuesBySeverity]
  | cons x xs ih =>
    rw [categorizeIssuesBySeverity, List.foldl_cons,
      ← categorizeIssuesBySeverity, ih]
    by_cases he : x.severity = "error"
    · simp [pushBySeverity, he, List.filter_cons]
    · by_cases hw : x.severity = "warning" <;>
        simp [pushBySeverity, he, hw, List.filter_cons]

theorem categorize_info (xs : List LintIssue) (b : Buckets) :
    (categorizeIssuesBySeverity xs b).info =
      b.info ++ xs.filter
        (fun i => ¬ i.severity = "error" ∧ ¬ i.severity = "warning") := by
  induction xs generalizing b with
  | nil => simp [categorizeIssuesBySeverity]
  | cons x xs ih =>
    rw [categorizeIssuesBySeverity, List.foldl_cons,
      ← categorizeIssuesBySeverity, ih]
    by_cases he : x.severity = "error"
    · simp [pushBySeverity, he, List.filter_cons]
    · by_cases hw : x.severity = "warning" <;>
        simp [pushBySeverity, he, hw, List.filter_cons]

theorem lint_fold_flatten {Rule : Type}
    (lintFile : FileRec → List Rule → List LintIssue) (rules : List Rule)
    (files : List FileRec) (b : Buckets) :
    files.foldl (fun acc f => categorizeIssuesBySeverity (lintFile f rules) acc) b
      = categorizeIssuesBySeverity
          ((files.map (fun f => lintFile f rules)).flatten) b := by
  induction files generalizing b with
  | nil => simp [categorizeIssuesBySeverity]
  | cons f fs ih =>
    rw [List.foldl_cons, ih, List.map_cons, List.flatten_cons,
      categorizeLint_append]

end CustomLinter

namespace AIReview

theorem isArrField_arrOf (o : Option Json) (h : isArrField o = true) :
    o = some (.arr (arrOf o)) := by
  rcases o with _ | j
  · simp [isArrField] at h
  · cases j <;> simp_all [isArrField, arrOf]

theorem conforms_fields (j : Json) (h : conformsShape j = true) :
    getField j "comments" = some (.arr (arrOf (getField j "comments"))) ∧
    getField j "issues" = some (.arr (arrOf (getField j "issues"))) := by
  rw [conformsShape, Bool.and_eq_true] at h
  exact ⟨isArrField_arrOf _ h.1, isArrField_arrOf _ h.2⟩

theorem categorizeIssues_append (xs ys : List Json) (b : IssueBuckets) :
    categorizeIssues (xs ++ ys) b =
      categorizeIssues ys (categorizeIssues xs b) := by
  simp [categorizeIssues, List.foldl_append]

/-- When every non-skipped file's analysis conforms, the loop completes and
returns the per-file contributions in input order. -/
theorem analyzePullRequestAux_ok (oracle : FileRec → String → CallOutcome)
    (lvl : String) (files : List FileRec) (comments : List Json)
    (buckets : IssueBuckets)
    (h : ∀ f ∈ files, shouldSkipFile f.filename = false →
      conformsShape (analyzeFile oracle f lvl) = true) :
    analyzePullRequestAux oracle lvl files comments buckets =
      .ok (comments ++
          ((files.filter (fun f => !shouldSkipFile f.filename)).map
            (fun f => fileComments oracle f lvl)).flatten,
        categorizeIssues
          (((files.filter (fun f => !shouldSkipFile f.filename)).map
            (fun f => fileIssues oracle f lvl)).flatten) buckets) := by
  induction files generalizing comments buckets with
  | nil => simp [analyzePullRequestAux, categorizeIssues]
  | cons f fs ih =>
    by_cases hskip : shouldSkipFile f.filename
    · rw [analyzePullRequestAux, if_pos hskip,
        ih _ _ (fun g hg hs => h g (List.mem_cons_of_mem _ hg) hs)]
      simp [List.filter_cons, hskip]
    · have hc := conforms_fields _
        (h f (List.mem_cons_self _ _) (by simpa using hskip))
      obtain ⟨cs, hcs⟩ : ∃ cs,
          getField (analyzeFile oracle f lvl) "comments" = some (.arr cs) :=
        ⟨_, hc.1⟩
      obtain ⟨iss, hiss⟩ : ∃ iss,
          getField (analyzeFile oracle f lvl) "issues" = some (.arr iss) :=
        ⟨_, hc.2⟩
      have hfc : fileComments oracle f lvl = cs := by
        rw [fileComments, hcs]; rfl
      have hfi : fileIssues oracle f lvl = iss := by
        rw [fileIssues, hiss]; rfl
      rw [analyzePullRequestAux, if_neg hskip]
      simp only [hcs, hiss]
      rw [ih _ _ (fun g hg hs => h g (List.mem_cons_of_mem _ hg) hs)]
      simp [List.filter_cons, hskip, hfc, hfi, categorizeIssues_append]

end AIReview

/-! ## Claim theorems -/

/-- Claim C1: for every triple of source results (AI comments, security
buckets as counted by `scanCode`, lint buckets as counted by `lintFiles`),
the decision is `APPROVED` iff the total finding count across all three
sources is zero; `CHANGES REQUESTED` iff at least one security finding is
in the `critical` bucket or at least one lint finding is in the `errors`
bucket; otherwise `REVIEW SUGGESTED`.  The partition is strict, and AI
comments never appear in the `CHANGES REQUESTED` condition. -/
theorem decision_trichotomy (aiComments : List AIReview.Json)
    (sb : SecurityScanner.Buckets) (lb : CustomLinter.Buckets) :
    (Controller.overallStatus aiComments (SecurityScanner.mkScanResult sb)
        (CustomLinter.mkLintResult lb) = .approved ↔
      aiComments.length +
        (sb.critical ++ sb.high ++ sb.medium ++ sb.low).length +
        (lb.errors ++ lb.warnings ++ lb.info).length = 0)
    ∧ (Controller.overallStatus aiComments (SecurityScanner.mkScanResult sb)
        (CustomLinter.mkLintResult lb) = .changesRequested ↔
      (0 < sb.critical.length ∨ 0 < lb.errors.length))
    ∧ (Controller.overallStatus aiComments (SecurityScanner.mkScanResult sb)
        (CustomLinter.mkLintResult lb) = .reviewSuggested ↔
      (aiComments.length +
        (sb.critical ++ sb.high ++ sb.medium ++ sb.low).length +
        (lb.errors ++ lb.warnings ++ lb.info).length ≠ 0
        ∧ sb.critical.length = 0 ∧ lb.errors.length = 0)) := by
  by_cases h0 : Controller.totalIssues aiComments
      (SecurityScanner.mkScanResult sb) (CustomLinter.mkLintResult lb) = 0
  · have harith : aiComments.length +
        (sb.critical ++ sb.high ++ sb.medium ++ sb.low).length +
        (lb.errors ++ lb.warnings ++ lb.info).length = 0 := h0
    have hcr : sb.critical.length = 0 ∧ lb.errors.length = 0 := by
      simp only [List.length_append] at harith
      omega
    have hD : Controller.overallStatus aiComments
        (SecurityScanner.mkScanResult sb) (CustomLinter.mkLintResult lb) =
        .approved := by
      unfold Controller.overallStatus
      rw [if_pos h0]
    refine ⟨?_, ?_, ?_⟩ <;> rw [hD]
    · exact ⟨fun _ => harith, fun _ => rfl⟩
    · exact ⟨fun h => Controller.Decision.noConfusion h,
        fun h => absurd h (by omega)⟩
    · exact ⟨fun h => Controller.Decision.noConfusion h,
        fun h => absurd harith h.1⟩
  · by_cases hc : 0 < (SecurityScanner.mkScanResult sb).critical ∨
        0 < (CustomLinter.mkLintResult lb).issues.errors.length
    · have hc' : 0 < sb.critical.length ∨ 0 < lb.errors.length := hc
      have h0' : aiComments.length +
          (sb.critical ++ sb.high ++ sb.medium ++ sb.low).length +
          (lb.errors ++ lb.warnings ++ lb.info).length ≠ 0 := h0
      have hD : Controller.overallStatus aiComments
          (SecurityScanner.mkScanResult sb) (CustomLinter.mkLintResult lb) =
          .changesRequested := by
        unfold Controller.overallStatus
        rw [if_neg h0, if_pos hc]
      refine ⟨?_, ?_, ?_⟩ <;> rw [hD]
      · exact ⟨fun h => Controller.Decision.noConfusion h,
          fun h => absurd h h0'⟩
      · exact ⟨fun _ => hc', fun _ => rfl⟩
      · refine ⟨fun h => Controller.Decision.noConfusion h, fun h => ?_⟩
        rcases h with ⟨-, h1, h2⟩
        omega
    · have hc' : ¬ (0 < sb.critical.length ∨ 0 < lb.errors.length) := hc
      have h0' : aiComments.length +
          (sb.critical ++ sb.high ++ sb.medium ++ sb.low).length +
          (lb.errors ++ lb.warnings ++ lb.info).length ≠ 0 := h0
      have hD : Controller.overallStatus aiComments
          (SecurityScanner.mkScanResult sb) (CustomLinter.mkLintResult lb) =
          .reviewSuggested := by
        unfold Controller.overallStatus
        rw [if_neg h0, if_neg hc]
      refine ⟨?_, ?_, ?_⟩ <;> rw [hD]
      · exact ⟨fun h => Controller.Decision.noConfusion h,
          fun h => absurd h h0'⟩
      · exact ⟨fun h => Controller.Decision.noConfusion h,
          fun h => absurd h hc'⟩
      · exact ⟨fun _ => ⟨h0', by omega, by omega⟩, fun _ => rfl⟩

/-- Claim C2: the flat inline comment list built by `createReview` has
exactly one entry per AI comment, one per security finding with severity
`critical` and one per lint finding with severity `error`; no other
finding contributes, so its length is the sum of those three counts. -/
theorem inline_comment_count (aiComments : List AIReview.Json)
    (secFindings : List SecurityScanner.SecIssue)
    (lintFindings : List CustomLinter.LintIssue) :
    (Controller.combinedComments aiComments
        (SecurityScanner.mkScanResult
          (SecurityScanner.categorizeIssuesBySeverity secFindings {}))
        (CustomLinter.mkLintResult
          (CustomLinter.categorizeIssuesBySeverity lintFindings {}))).length =
      aiComments.length
      + (secFindings.filter
          (fun i => i.severity = SecurityScanner.Severity.critical)).length
      + (lintFindings.filter (fun i => i.severity = "error")).length := by
  simp [Controller.combinedComments, SecurityScanner.mkScanResult,
    CustomLinter.mkLintResult, SecurityScanner.categorize_critical,
    CustomLinter.categorize_errors]
  omega

/-- Claim C3: `sanitizeSecret` keeps strings of length at most 10
unchanged; for longer strings it returns exactly the first 4 characters,
then 8 mask characters, then the fixed `...` marker — length 15 for every
input longer than 10. -/
theorem sanitizeSecret_spec (s : String) :
    (s.length ≤ 10 → SecurityScanner.sanitizeSecret s = s)
    ∧ (10 < s.length →
        SecurityScanner.sanitizeSecret s =
          String.mk (s.data.take 4) ++ "********" ++ "..."
        ∧ (SecurityScanner.sanitizeSecret s).length = 15) := by
  refine ⟨fun h => ?_, fun h => ⟨?_, ?_⟩⟩
  · rw [SecurityScanner.sanitizeSecret, if_pos h]
  · rw [SecurityScanner.sanitizeSecret, if_neg (by omega)]
  · rw [SecurityScanner.sanitizeSecret, if_neg (by omega)]
    rw [String.length_append, String.length_append]
    have h8 : ("********" : String).length = 8 := by decide
    have h3 : ("..." : String).length = 3 := by decide
    have h4 : (String.mk (s.data.take 4)).length = 4 := by
      show (s.data.take 4).length = 4
      rw [List.length_take]
      have hlen : s.data.length = s.length := rfl
      omega
    omega

/-- Witness for C3 at concrete inputs on both branches. -/
theorem sanitizeSecret_spec_witness :
    SecurityScanner.sanitizeSecret "short" = "short"
    ∧ (SecurityScanner.sanitizeSecret "AKIA1234567890ABCDEF").length = 15 :=
  ⟨(sanitizeSecret_spec "short").1 (by decide),
   ((sanitizeSecret_spec "AKIA1234567890ABCDEF").2 (by decide)).2⟩

/-- Claim C5: `getLineNumber` is 1-based: it returns `k + 1` for the first
line index `k` whose cumulative length (including its own newline) exceeds
the match offset, returns 1 when no cumulative length ever exceeds the
offset, is monotone in the offset for offsets inside the text, and on the
patch text `"a\nb\nc"` maps index 2 to line 2 and index 0 to line 1. -/
theorem getLineNumber_spec :
    (∀ (lines : List String) (c k : Nat), k < lines.length →
      c < cumLen lines (k + 1) → (∀ j, j < k → cumLen lines (j + 1) ≤ c) →
      getLineNumber lines c = k + 1)
    ∧ (∀ (lines : List String) (c : Nat),
        (∀ j, j < lines.length → cumLen lines (j + 1) ≤ c) →
        getLineNumber lines c = 1)
    ∧ (∀ (lines : List String) (c c' : Nat), c ≤ c' →
        c' < cumLen lines lines.length →
        getLineNumber lines c ≤ getLineNumber lines c')
    ∧ getLineNumber (splitNl "a\nb\nc") 2 = 2
    ∧ getLineNumber (splitNl "a\nb\nc") 0 = 1 := by
  refine ⟨?_, ?_, getLineNumber_mono, by decide, by decide⟩
  · intro lines c k hk hlt hmin
    have hres := getLineNumberAux_first lines c 0 1 k hk (by omega)
      (fun j hj => by have := hmin j hj; omega)
    rw [getLineNumber, hres]
    omega
  · intro lines c hnone
    exact getLineNumberAux_none lines c 0 1
      (fun j hj => by have := hnone j hj; omega)

/-- Witness for C5: the first-line characterization, the fallback and the
monotonicity applied at concrete inputs. -/
theorem getLineNumber_spec_witness :
    getLineNumber ["ab", "cd"] 3 = 2
    ∧ getLineNumber ["ab"] 9 = 1
    ∧ getLineNumber ["ab", "cd"] 0 ≤ getLineNumber ["ab", "cd"] 3 :=
  ⟨getLineNumber_spec.1 ["ab", "cd"] 3 1 (by decide) (by decide) (by decide),
   getLineNumber_spec.2.1 ["ab"] 9 (by decide),
   getLineNumber_spec.2.2.1 ["ab", "cd"] 0 3 (by decide) (by decide)⟩

/-- Counterexample for C6 as stated: lockfiles and minified bundles are
NOT "always skipped by the scanner regardless of their extension" —
`shouldScanFile` consults only the extension allowlist, so
`package-lock.json` (extension `.json`) and `bundle.min.js` (extension
`.js`) are scanned.  The lockfile/minified/build-output skip patterns
live in `aiReviewService.shouldSkipFile`, not in the scanner. -/
theorem scanner_scans_lockfile :
    SecurityScanner.shouldScanFile "package-lock.json" = true
    ∧ SecurityScanner.shouldScanFile "bundle.min.js" = true
    ∧ AIReview.shouldSkipFile "package-lock.json" = true := by decide

/-- Claim C6 (amended): the security scanner scans a file iff its
filename ends with one of the allowlisted extensions; files failing that
test contribute nothing to the scan result (`scanCode` on a file list
equals `scanCode` on its allowlist-filtered sublist). -/
theorem scanCode_extension_filter
    (scanFile : FileRec → List SecurityScanner.SecIssue)
    (files : List FileRec) :
    SecurityScanner.scanCode scanFile files =
      SecurityScanner.scanCode scanFile
        (files.filter (fun f => SecurityScanner.shouldScanFile f.filename))
    ∧ (∀ name, SecurityScanner.shouldScanFile name = true ↔
        ∃ ext ∈ SecurityScanner.scanExtensions,
          strEndsWith name ext = true) := by
  constructor
  · have hsc : ∀ fl : List FileRec, SecurityScanner.scanCode scanFile fl =
        SecurityScanner.mkScanResult
          ((fl.filter (fun f => SecurityScanner.shouldScanFile f.filename)).foldl
            (fun acc f =>
              SecurityScanner.categorizeIssuesBySeverity (scanFile f) acc)
            {}) := by
      intro fl
      rw [SecurityScanner.scanCode, foldl_skip_eq_foldl_filter]
    rw [hsc, hsc, List.filter_filter]
    simp
  · intro name
    simp [SecurityScanner.shouldScanFile, List.any_eq_true]

/-- Counterexample for C7 as stated: for the unknown review level
`"aggressive"` the prompt neither falls back to the `standard`
instruction string nor signals a configuration error — the lookup yields
JavaScript `undefined` and the template renders the literal text
`undefined` (the prompt builder is a total function with no error
outcome). -/
theorem unknown_level_counterexample :
    AIReview.levelInstructions "aggressive" = none
    ∧ AIReview.buildAnalysisPrompt exampleFile "aggressive" =
        AIReview.buildAnalysisPromptWith exampleFile "aggressive" "undefined"
    ∧ AIReview.jsInterp (AIReview.levelInstructions "standard") =
        "Review for bugs, security, performance, and major code quality issues"
    ∧ AIReview.buildAnalysisPrompt exampleFile "aggressive" ≠
        AIReview.buildAnalysisPromptWith exampleFile "aggressive"
          (AIReview.jsInterp (AIReview.levelInstructions "standard")) := by
  refine ⟨rfl, rfl, rfl, ?_⟩
  decide

/-- Claim C7 (amended): for every review level outside
`light`/`standard`/`strict` the instruction lookup yields `undefined`
and the prompt is still built totally (no crash), splicing in the
literal text `undefined` — neither the standard fallback nor a
configuration error. -/
theorem unknown_level_prompt (file : FileRec) (lvl : String)
    (h1 : lvl ≠ "light") (h2 : lvl ≠ "standard") (h3 : lvl ≠ "strict") :
    AIReview.levelInstructions lvl = none
    ∧ AIReview.buildAnalysisPrompt file lvl =
        AIReview.buildAnalysisPromptWith file lvl "undefined" := by
  have hnone : AIReview.levelInstructions lvl = none := by
    rw [AIReview.levelInstructions, if_neg h1, if_neg h2, if_neg h3]
  refine ⟨hnone, ?_⟩
  rw [AIReview.buildAnalysisPrompt, hnone]
  rfl

/-- Witness for C7 (amended) at the concrete unknown level
`"aggressive"`. -/
theorem unknown_level_prompt_witness :
    AIReview.levelInstructions "aggressive" = none
    ∧ AIReview.buildAnalysisPrompt exampleFile "aggressive" =
        AIReview.buildAnalysisPromptWith exampleFile "aggressive"
          "undefined" :=
  unknown_level_prompt exampleFile "aggressive" (by decide) (by decide)
    (by decide)

/-- Claim C8: the column reported for a lint pattern match is NOT the
0-based offset of the match within its own line: for the patch text
`"x\nyz"` and a match at character index 3 (the `z`, line 2 offset 1),
the code's `charIndex % (line.length + 1)` computes `3 % 3 = 0` while the
claimed offset is `1`. -/
theorem lint_column_mod_bug :
    patternMatchColumn "x\nyz" 3 = 0 ∧ columnSpec "x\nyz" 3 = 1 := by
  decide

/-- Claim C9: the weak-random finding is emitted iff the patch text
matches `Math.random()` AND the filename contains `auth`, `token` or
`crypto`; the disabled-security-feature and dangerous-eval findings are
emitted from the patch text alone, for every filename. -/
theorem advanced_checks_triggers (file : FileRec) (content : String) :
    ((∃ i ∈ SecurityScanner.performAdvancedChecks file content,
        i.name = "Weak Random Number Generation") ↔
      (reTest SecurityScanner.mathRandomRE content = true ∧
        SecurityScanner.securitySensitiveName file.filename = true))
    ∧ ((∃ i ∈ SecurityScanner.performAdvancedChecks file content,
        i.name = "Disabled Security Feature") ↔
      reTestCI SecurityScanner.disabledSecurityRE content = true)
    ∧ ((∃ i ∈ SecurityScanner.performAdvancedChecks file content,
        i.name = "Dangerous Function Usage") ↔
      reTestCI SecurityScanner.dangerousEvalRE content = true) := by
  cases h1 : reTest SecurityScanner.mathRandomRE content <;>
    cases h2 : SecurityScanner.securitySensitiveName file.filename <;>
    cases h3 : reTestCI SecurityScanner.disabledSecurityRE content <;>
    cases h4 : reTestCI SecurityScanner.dangerousEvalRE content <;>
    simp [SecurityScanner.performAdvancedChecks, h1, h2, h3, h4]

/-- Claim C10: `lintFiles` puts every produced finding with severity
`error` in the errors bucket, `warning` in the warnings bucket, and any
other severity string in the info bucket (total bucketing — the linter's
if/else chain cannot throw for unknown severities), and the returned
total equals the sum of the three bucket sizes — for every file list,
every per-file rule engine, and every custom rule list. -/
theorem lint_severity_bucketing {Rule : Type}
    (lintFile : FileRec → List Rule → List CustomLinter.LintIssue)
    (defaultRules : List Rule) (files : List FileRec)
    (customRules : List Rule) :
    (CustomLinter.lintFiles lintFile defaultRules files
        customRules).issues.errors =
      ((files.map (fun f =>
          lintFile f (defaultRules ++ customRules))).flatten).filter
        (fun i => i.severity = "error")
    ∧ (CustomLinter.lintFiles lintFile defaultRules files
        customRules).issues.warnings =
      ((files.map (fun f =>
          lintFile f (defaultRules ++ customRules))).flatten).filter
        (fun i => i.severity = "warning")
    ∧ (CustomLinter.lintFiles lintFile defaultRules files
        customRules).issues.info =
      ((files.map (fun f =>
          lintFile f (defaultRules ++ customRules))).flatten).filter
        (fun i => ¬ i.severity = "error" ∧ ¬ i.severity = "warning")
    ∧ (CustomLinter.lintFiles lintFile defaultRules files
        customRules).total =
      (CustomLinter.lintFiles lintFile defaultRules files
        customRules).issues.errors.length +
      (CustomLinter.lintFiles lintFile defaultRules files
        customRules).issues.warnings.length +
      (CustomLinter.lintFiles lintFile defaultRules files
        customRules).issues.info.length := by
  have hfold := CustomLinter.lint_fold_flatten lintFile
    (defaultRules ++ customRules) files ({} : CustomLinter.Buckets)
  refine ⟨?_, ?_, ?_, ?_⟩ <;>
    simp [CustomLinter.lintFiles, CustomLinter.mkLintResult, hfold,
      CustomLinter.categorize_errors, CustomLinter.categorize_warnings,
      CustomLinter.categorize_info]
  omega

/-- Counterexample for C4 as stated: a response that is syntactically
valid JSON but of the wrong shape (`comments` is the number 5) is NOT
normalized to the empty shape — `analyzeFile` returns it unvalidated —
and it DOES abort the batch: `analyzePullRequest` raises the `TypeError`
of spreading a non-array instead of continuing with the remaining
files. -/
theorem analyzeFile_wrong_shape_counterexample :
    AIReview.conformsShape badShape = false
    ∧ AIReview.analyzeFile (fun _ _ => .parsed badShape) fileA "standard" =
        badShape
    ∧ AIReview.analyzeFile (fun _ _ => .parsed badShape) fileA "standard" ≠
        AIReview.emptyShape
    ∧ AIReview.analyzePullRequest (fun _ _ => .parsed badShape)
        [fileA, fileB] "standard" = .error "TypeError" := by
  refine ⟨rfl, rfl, ?_, rfl⟩
  intro h
  rw [AIReview.analyzeFile] at h
  simp [badShape, AIReview.emptyShape] at h

/-- Claim C4 (amended): an AI call failure or a `JSON.parse` failure for
one file degrades to the empty shape (hence an empty contribution) for
that file, and as long as every non-skipped file's parsed response has
the expected shape the batch completes, concatenating the per-file
contributions in input order — so call/parse failures never abort the
batch.  (A successfully parsed response of the wrong shape is a
different matter: see the counterexample.) -/
theorem ai_failure_isolation (oracle : FileRec → String → AIReview.CallOutcome)
    (files : List FileRec) (lvl : String) :
    (∀ f, (oracle f lvl = .callError ∨ oracle f lvl = .parseError) →
      AIReview.analyzeFile oracle f lvl = AIReview.emptyShape
      ∧ AIReview.fileComments oracle f lvl = []
      ∧ AIReview.fileIssues oracle f lvl = [])
    ∧ ((∀ f ∈ files, AIReview.shouldSkipFile f.filename = false →
        AIReview.conformsShape (AIReview.analyzeFile oracle f lvl) = true) →
      AIReview.analyzePullRequest oracle files lvl =
        .ok (((files.filter
              (fun f => !AIReview.shouldSkipFile f.filename)).map
            (fun f => AIReview.fileComments oracle f lvl)).flatten,
          AIReview.categorizeIssues
            (((files.filter
                (fun f => !AIReview.shouldSkipFile f.filename)).map
              (fun f => AIReview.fileIssues oracle f lvl)).flatten) {})) := by
  constructor
  · intro f hf
    have hshape : AIReview.analyzeFile oracle f lvl = AIReview.emptyShape := by
      rcases hf with hf | hf <;> rw [AIReview.analyzeFile, hf]
    refine ⟨hshape, ?_, ?_⟩
    · rw [AIReview.fileComments, hshape]
      rfl
    · rw [AIReview.fileIssues, hshape]
      rfl
  · intro h
    exact AIReview.analyzePullRequestAux_ok oracle lvl files [] {} h

/-- Witness for C4 (amended): a batch where the call for `a.js` throws
and `b.js` yields the conforming empty shape — `a.js` contributes
nothing and the batch completes. -/
theorem ai_failure_isolation_witness :
    (AIReview.analyzeFile oracleW fileA "standard" = AIReview.emptyShape
      ∧ AIReview.fileComments oracleW fileA "standard" = []
      ∧ AIReview.fileIssues oracleW fileA "standard" = [])
    ∧ AIReview.analyzePullRequest oracleW filesW "standard" =
        .ok (((filesW.filter
              (fun f => !AIReview.shouldSkipFile f.filename)).map
            (fun f => AIReview.fileComments oracleW f "standard")).flatten,
          AIReview.categorizeIssues
            (((filesW.filter
                (fun f => !AIReview.shouldSkipFile f.filename)).map
              (fun f => AIReview.fileIssues oracleW f "standard")).flatten)
            {}) :=
  ⟨(ai_failure_isolation oracleW filesW "standard").1 fileA (Or.inl rfl),
   (ai_failure_isolation oracleW filesW "standard").2 (by
    intro f hf hs
    have hmem : f = fileA ∨ f = fileB := by simpa [filesW] using hf
    rcases hmem with rfl | rfl <;> rfl)⟩
